import Mathlib

/-!
Shallow embedding of the recipe-explorer front end: the application state
container (search text, filter selection, favorites list, pagination cursor),
the API-client response normalization, the home-page browsing state machine,
the grid renderer, and the favorites-view filter.  Each definition mirrors one
function of the JavaScript source; stateful React hooks become explicit state
passing, thrown exceptions become `Except`, and JavaScript field absence
becomes `Option`.
-/

namespace RecipeExplorer

/-- A recipe record.  Only the fields consulted by the embedded logic are
modelled; fields that may be absent on a JavaScript object are `Option`. -/
structure Recipe where
  id : String
  name : Option String
  cuisine : Option String
  diet : Option String
  cookTime : Option Int
  ingredients : Option (List String)
deriving DecidableEq, Repr

/-- The filter selection held by the state container: cuisine, diet and
max cook time, each the empty string when inactive (mirrors the initial
`useState` object in the context provider). -/
structure Filters where
  cuisine : String
  diet : String
  maxTime : String
deriving DecidableEq, Repr

/-- The default filter selection: every field the empty string. -/
def defaultFilters : Filters := ⟨"", "", ""⟩

/-- A partial filter update, as passed to `updateFilters`; absent fields are
left untouched by the shallow merge. -/
structure FilterPatch where
  cuisine : Option String
  diet : Option String
  maxTime : Option String
deriving DecidableEq, Repr

/-- The shallow merge performed by the spread in
`setFilters(\x7b ...filters, ...newFilters \x7d)`. -/
def mergeFilters (f : Filters) (p : FilterPatch) : Filters :=
  { cuisine := p.cuisine.getD f.cuisine
    diet := p.diet.getD f.diet
    maxTime := p.maxTime.getD f.maxTime }

/-- The state held by the application context provider: search text, filter
selection, favorites list, and the pagination cursor
(`currentPage`, `hasMore`, `isLoadingMore`). -/
structure AppState where
  searchQuery : String
  filters : Filters
  favorites : List String
  currentPage : Nat
  hasMore : Bool
  isLoadingMore : Bool
deriving DecidableEq, Repr

/-- `addFavorite`: append the id unless it is already present. -/
def addFavorite (favorites : List String) (recipeId : String) : List String :=
  if favorites.contains recipeId then favorites else favorites ++ [recipeId]

/-- `removeFavorite`: keep every id different from the removed one. -/
def removeFavorite (favorites : List String) (recipeId : String) : List String :=
  favorites.filter (fun id => id ≠ recipeId)

/-- `toggleFavorite`: remove when present, add when absent. -/
def toggleFavorite (favorites : List String) (recipeId : String) : List String :=
  if favorites.contains recipeId then removeFavorite favorites recipeId
  else addFavorite favorites recipeId

/-- `isFavorite`: membership test on the favorites list. -/
def isFavorite (favorites : List String) (recipeId : String) : Bool :=
  favorites.contains recipeId

/-- `setSearchQuery`: the raw search-text setter of the context provider. -/
def setSearchQuery (s : AppState) (q : String) : AppState :=
  { s with searchQuery := q }

/-- `updateFilters`: shallow-merge the patch, then set `currentPage` to 1 and
`hasMore` to true.  (The source does not touch `isLoadingMore` here.) -/
def updateFilters (s : AppState) (p : FilterPatch) : AppState :=
  { s with filters := mergeFilters s.filters p, currentPage := 1, hasMore := true }

/-- `resetFilters`: restore the default filters, set `currentPage` to 1 and
`hasMore` to true.  (The source does not touch `isLoadingMore` here.) -/
def resetFilters (s : AppState) : AppState :=
  { s with filters := defaultFilters, currentPage := 1, hasMore := true }

/-- `resetPagination`: set the whole cursor back to (1, true, false). -/
def resetPagination (s : AppState) : AppState :=
  { s with currentPage := 1, hasMore := true, isLoadingMore := false }

/-- `loadNextPage`: increment the page only when `hasMore` holds and no load
is in flight. -/
def loadNextPage (s : AppState) : AppState :=
  if s.hasMore ∧ ¬ s.isLoadingMore then { s with currentPage := s.currentPage + 1 }
  else s

/-- JavaScript truthy-or for numbers (`a || b`): the left value is kept only
when present and nonzero, since `0` is falsy. -/
def jsOrNat (a : Option Nat) (b : Nat) : Nat :=
  match a with
  | none => b
  | some n => if n = 0 then b else n

/-- JavaScript truthy-or for strings (`a || b`): the left value is kept only
when present and nonempty, since the empty string is falsy. -/
def jsOrString (a : String) (b : String) : String :=
  if a = "" then b else a

/-- The canonical result shape produced by `fetchRecipes`. -/
structure FetchResult where
  recipes : List Recipe
  total : Nat
  hasMore : Bool
  page : Nat
deriving DecidableEq, Repr

/-- A paginated-envelope response body; every field may be absent. -/
structure Envelope where
  recipes : Option (List Recipe)
  data : Option (List Recipe)
  total : Option Nat
  hasMore : Option Bool
  page : Option Nat
deriving DecidableEq, Repr

/-- The two response shapes the API may return: a bare array or an envelope. -/
inductive Payload where
  | arr (recipes : List Recipe)
  | envelope (e : Envelope)
deriving DecidableEq, Repr

/-- `fetchRecipes` normalization (the pure tail of the API-client function,
applied to the decoded HTTP payload and the requested page number): a bare
array is wrapped as one full page; an envelope is read field by field with
JavaScript truthy defaults (`result.recipes || result.data || []`,
`result.total || 0`, `hasMore` defaulted only when undefined,
`result.page || page`). -/
def fetchRecipes (result : Payload) (page : Nat) : FetchResult :=
  match result with
  | .arr rs => { recipes := rs, total := rs.length, hasMore := false, page := 1 }
  | .envelope e =>
      { recipes := e.recipes.getD (e.data.getD [])
        total := jsOrNat e.total 0
        hasMore := e.hasMore.getD false
        page := jsOrNat e.page page }

/-- Home-page component state: the fetched list, the loading flag, the error
message (absent when cleared), and the duplicate-request guard ref. -/
structure HomeState where
  recipes : List Recipe
  loading : Bool
  error : Option String
  loadingRef : Bool
deriving DecidableEq, Repr

/-- The three hard-coded sample recipes injected by the home page when the
first-page request fails. -/
def mockRecipes : List Recipe :=
  [ { id := "1", name := some "Classic Margherita Pizza", cuisine := some "Italian",
      diet := some "Vegetarian", cookTime := some 30, ingredients := none },
    { id := "2", name := some "Spicy Thai Green Curry", cuisine := some "Thai",
      diet := some "Gluten-Free", cookTime := some 45, ingredients := none },
    { id := "3", name := some "Chocolate Lava Cake", cuisine := some "French",
      diet := none, cookTime := some 25, ingredients := none } ]

/-- `loadRecipes` of the home page, as one step from the pre-call state to the
post-settlement state.  The network outcome is the `result` argument
(`.ok` for a normalized response, `.error msg` for a thrown transport or
status error).  The returned `Bool` records whether a request was issued:
when the `loadingRef` guard is set the call returns immediately.  On failure
the error message is stored (with the JavaScript default for an empty
message), and only a non-append call injects `mockRecipes` and clears
`hasMore`; the `finally` block always clears `loading`, `isLoadingMore` and
the guard. -/
def loadRecipes (s : AppState) (h : HomeState) (append : Bool)
    (result : Except String FetchResult) : AppState × HomeState × Bool :=
  if h.loadingRef then (s, h, false)
  else
    let h1 := { h with loadingRef := true }
    let sh2 :=
      if append then ({ s with isLoadingMore := true }, h1)
      else (s, { h1 with loading := true, recipes := [] })
    let s2 := sh2.1
    let h3 := { sh2.2 with error := none }
    match result with
    | .ok res =>
        let h4 :=
          if append then { h3 with recipes := h3.recipes ++ res.recipes }
          else { h3 with recipes := res.recipes }
        let s3 := { s2 with hasMore := res.hasMore }
        ({ s3 with isLoadingMore := false },
         { h4 with loading := false, loadingRef := false }, true)
    | .error msg =>
        let h4 := { h3 with error := some (jsOrString msg "Failed to load recipes") }
        let sh5 :=
          if append then (s2, h4)
          else ({ s2 with hasMore := false }, { h4 with recipes := mockRecipes })
        ({ sh5.1 with isLoadingMore := false },
         { sh5.2 with loading := false, loadingRef := false }, true)

/-- The reset effect the home page runs whenever the search text or the
filter selection changes: reset the pagination cursor and clear the list
(the first-page request then follows as a separate `loadRecipes` step). -/
def homeQueryChangeReset (s : AppState) (h : HomeState) : AppState × HomeState :=
  (resetPagination s, { h with recipes := [] })

/-- What the `RecipeGrid` component renders: a branch of this sum. -/
inductive GridView where
  | loadingView
  | errorView (msg : String)
  | emptyView
  | grid (recipes : List Recipe)
deriving DecidableEq, Repr

/-- `RecipeGrid`: loading first, then a truthy error (a nonempty message)
preempts everything else, then the empty notice, then the card grid. -/
def recipeGrid (recipes : List Recipe) (loading : Bool) (error : Option String) :
    GridView :=
  if loading then .loadingView
  else
    match error with
    | some msg => if msg = "" then
        (if recipes.isEmpty then .emptyView else .grid recipes)
      else .errorView msg
    | none => if recipes.isEmpty then .emptyView else .grid recipes

/-- The recipes actually displayed by a rendered grid view (empty for every
branch except the card grid). -/
def displayedRecipes : GridView → List Recipe
  | .grid rs => rs
  | _ => []

/-- Whether a rendered grid view shows an error message. -/
def showsErrorMessage : GridView → Bool
  | .errorView _ => true
  | _ => false

/-- Whether `needle` occurs at the start of `hay` (character lists). -/
def charsPre : List Char → List Char → Bool
  | [], _ => true
  | _ :: _, [] => false
  | a :: as, b :: bs => a == b && charsPre as bs

/-- Whether `needle` occurs anywhere inside `hay` (character lists). -/
def charsSub (needle : List Char) : List Char → Bool
  | [] => needle.isEmpty
  | b :: bs => charsPre needle (b :: bs) || charsSub needle bs

/-- JavaScript `hay.includes(needle)` on strings. -/
def includes (hay needle : String) : Bool :=
  charsSub needle.data hay.data

/-- JavaScript `s.toLowerCase()`: lowercase the string character by
character. -/
def lowerStr (s : String) : String :=
  ⟨s.data.map Char.toLower⟩

/-- JavaScript `parseInt(s, 10)`: skip leading whitespace, read an optional
sign, then the maximal run of decimal digits; `none` models `NaN`. -/
def parseIntJS (s : String) : Option Int :=
  let cs := s.data.dropWhile (fun c => c == ' ' || c == '\t' || c == '\n' || c == '\r')
  let signed : Int × List Char :=
    match cs with
    | '-' :: rest => (-1, rest)
    | '+' :: rest => (1, rest)
    | _ => (1, cs)
  let ds := signed.2.takeWhile Char.isDigit
  if ds.isEmpty then none
  else some (signed.1 * (ds.foldl (fun n c => n * 10 + (c.toNat - 48)) 0 : Nat))

/-- `Array.filter` with a predicate that can throw, evaluated left to right;
the first thrown exception aborts the whole filter. -/
def filterE (p : α → Except Unit Bool) : List α → Except Unit (List α)
  | [] => .ok []
  | x :: xs => do
      let b ← p x
      let rest ← filterE p xs
      pure (if b then x :: rest else rest)

/-- The search predicate of the favorites view (`lq` is the lowercased
query): `recipe.name.toLowerCase().includes(lq) ||
recipe.cuisine.toLowerCase().includes(lq) || (recipe.ingredients &&
recipe.ingredients.join(...).toLowerCase().includes(lq))` — `name` and then
`cuisine` are dereferenced unguarded (a method call on `undefined` throws,
modelled as `.error ()`), `ingredients` is guarded. -/
def searchPred (lq : String) (r : Recipe) : Except Unit Bool :=
  match r.name with
  | none => .error ()
  | some nm =>
    if includes (lowerStr nm) lq then .ok true
    else
      match r.cuisine with
      | none => .error ()
      | some cu =>
        if includes (lowerStr cu) lq then .ok true
        else
          match r.ingredients with
          | some ings => .ok (includes (lowerStr (String.intercalate " " ings)) lq)
          | none => .ok false

/-- The cuisine-filter predicate: unguarded dereference of `recipe.cuisine`
(throws when absent), then exact case-insensitive comparison. -/
def cuisinePred (c : String) (r : Recipe) : Except Unit Bool :=
  match r.cuisine with
  | none => .error ()
  | some cu => .ok (lowerStr cu == lowerStr c)

/-- The diet-filter predicate: unguarded dereference of `recipe.diet`
(throws when absent), then exact case-insensitive comparison. -/
def dietPred (d : String) (r : Recipe) : Except Unit Bool :=
  match r.diet with
  | none => .error ()
  | some di => .ok (lowerStr di == lowerStr d)

/-- The max-time predicate `recipe.cookTime <= parseInt(filters.maxTime, 10)`:
a comparison against an absent field or a failed parse is `NaN` arithmetic
and yields false rather than throwing. -/
def maxTimePred (mt : String) (r : Recipe) : Bool :=
  match r.cookTime, parseIntJS mt with
  | some ct, some m => ct ≤ m
  | _, _ => false

/-- The `favoriteRecipes` memo of the favorites view: keep the fetched
recipes whose id is favorited, then narrow by search text, cuisine, diet,
and max cook time in that order, each stage active only when its input is a
nonempty string (JavaScript truthiness). -/
def favoriteRecipes (allRecipes : List Recipe) (favorites : List String)
    (searchQuery : String) (filters : Filters) : Except Unit (List Recipe) :=
  let step1 := allRecipes.filter (fun r => favorites.contains r.id)
  (if searchQuery ≠ "" then filterE (searchPred (lowerStr searchQuery)) step1
   else pure step1) >>= fun step2 =>
  (if filters.cuisine ≠ "" then filterE (cuisinePred filters.cuisine) step2
   else pure step2) >>= fun step3 =>
  (if filters.diet ≠ "" then filterE (dietPred filters.diet) step3
   else pure step3) >>= fun step4 =>
  pure (if filters.maxTime ≠ "" then step4.filter (maxTimePred filters.maxTime)
   else step4)

/-- Durable key-value storage, modelled as an association list. -/
def Store := List (String × String)

/-- `localStorage.getItem`. -/
def getItem (st : Store) (k : String) : Option String :=
  match st.find? (fun kv => kv.1 == k) with
  | some kv => some kv.2
  | none => none

/-- `localStorage.setItem`: replace the binding for the key. -/
def setItem (st : Store) (k v : String) : Store :=
  (k, v) :: List.filter (fun kv => kv.1 != k) st

/-- Escape one character as inside a JSON string literal. -/
def jsonEscapeChar (c : Char) : String :=
  if c = '"' then "\\\""
  else if c = '\\' then "\\\\"
  else String.singleton c

/-- `JSON.stringify` of a list of strings, as written for the favorites
list: a bracketed, comma-separated list of quoted strings. -/
def stringifyFavorites (l : List String) : String :=
  "[" ++ String.intercalate ","
    (l.map (fun s => "\"" ++ String.join (s.data.map jsonEscapeChar) ++ "\"")) ++ "]"

/-- The persistence effect of the provider: try to write the serialized
favorites under `recipe_favorites`; a thrown storage error (modelled by the
`writeFails` flag) is caught, logged and swallowed, leaving the store as it
was. -/
def persistFavorites (favorites : List String) (st : Store) (writeFails : Bool) :
    Store :=
  let attempt : Except Unit Store :=
    if writeFails then .error () else .ok (setItem st "recipe_favorites" (stringifyFavorites favorites))
  match attempt with
  | .ok st2 => st2
  | .error _ => st

/-- The three favorites mutations of the provider. -/
inductive FavMutation where
  | add
  | remove
  | toggle
deriving DecidableEq, Repr

/-- Apply one favorites mutation to the in-memory list. -/
def applyMutation : FavMutation → List String → String → List String
  | .add, favorites, id => addFavorite favorites id
  | .remove, favorites, id => removeFavorite favorites id
  | .toggle, favorites, id => toggleFavorite favorites id

/-- One settled favorites mutation: the state update followed by the
persistence effect that React runs when the favorites list changes. -/
def favoritesSettle (m : FavMutation) (favorites : List String) (id : String)
    (st : Store) (writeFails : Bool) : List String × Store :=
  let favorites2 := applyMutation m favorites id
  (favorites2, persistFavorites favorites2 st writeFails)

/-! ### Helper lemmas -/

lemma contains_eq_true_iff (l : List String) (a : String) :
    l.contains a = true ↔ a ∈ l := by
  simp [List.contains]

lemma contains_eq_false_iff (l : List String) (a : String) :
    l.contains a = false ↔ a ∉ l := by
  rw [← Bool.not_eq_true, not_iff_not]
  exact contains_eq_true_iff l a

lemma removeFavorite_of_not_mem {l : List String} {a : String} (h : a ∉ l) :
    removeFavorite l a = l := by
  unfold removeFavorite
  apply List.filter_eq_self.mpr
  intro x hx
  simp only [decide_eq_true_eq]
  intro hxa
  exact h (hxa ▸ hx)

lemma not_mem_removeFavorite (l : List String) (a : String) :
    a ∉ removeFavorite l a := by
  unfold removeFavorite
  intro h
  have := List.of_mem_filter h
  simp at this

lemma bindE_ok {α β : Type} {x : Except Unit α} {f : α → Except Unit β}
    {b : β} (h : x >>= f = .ok b) : ∃ a, x = .ok a ∧ f a = .ok b := by
  cases x with
  | error e => exact Except.noConfusion h
  | ok a => exact ⟨a, rfl, h⟩

lemma bindE_error {α β : Type} {x : Except Unit α} {f : α → Except Unit β}
    (h : x = .error ()) : x >>= f = .error () := by
  subst h; rfl

lemma filterE_ok_mem {α : Type} {p : α → Except Unit Bool} {l res : List α}
    (h : filterE p l = .ok res) : ∀ r ∈ res, r ∈ l ∧ p r = .ok true := by
  induction l generalizing res with
  | nil =>
    simp only [filterE, Except.ok.injEq] at h
    subst h
    intro r hr
    cases hr
  | cons x xs ih =>
    simp only [filterE] at h
    obtain ⟨b, hb, h2⟩ := bindE_ok h
    obtain ⟨rest, hrest, h3⟩ := bindE_ok h2
    simp only [pure, Except.pure, Except.ok.injEq] at h3
    subst h3
    intro r hr
    cases b with
    | true =>
      simp only [if_true] at hr
      rcases List.mem_cons.mp hr with h4 | h4
      · subst h4; exact ⟨List.mem_cons_self _ _, hb⟩
      · obtain ⟨h5, h6⟩ := ih hrest r h4
        exact ⟨List.mem_cons_of_mem _ h5, h6⟩
    | false =>
      rw [if_neg Bool.false_ne_true] at hr
      obtain ⟨h5, h6⟩ := ih hrest r hr
      exact ⟨List.mem_cons_of_mem _ h5, h6⟩

lemma filterE_error_of_mem {α : Type} {p : α → Except Unit Bool} {l : List α}
    {r : α} (hr : r ∈ l) (hp : p r = .error ()) :
    filterE p l = .error () := by
  induction l with
  | nil => cases hr
  | cons x xs ih =>
    simp only [filterE]
    rcases List.mem_cons.mp hr with h1 | h1
    · subst h1
      exact bindE_error hp
    · cases hx : p x with
      | error e => cases e; exact bindE_error rfl
      | ok b =>
        have htail : filterE p xs = .error () := ih h1
        simp [Bind.bind, Except.bind, hx, htail]

lemma stage_ok_mem {α : Type} {cond : Prop} [Decidable cond]
    {p : α → Except Unit Bool} {l res : List α}
    (h : (if cond then filterE p l else pure l) = .ok res) :
    ∀ r ∈ res, r ∈ l ∧ (cond → p r = .ok true) := by
  by_cases hc : cond
  · rw [if_pos hc] at h
    intro r hr
    exact ⟨(filterE_ok_mem h r hr).1, fun _ => (filterE_ok_mem h r hr).2⟩
  · rw [if_neg hc] at h
    simp only [pure, Except.pure, Except.ok.injEq] at h
    subst h
    intro r hr
    exact ⟨hr, fun hcc => absurd hcc hc⟩

lemma cuisinePred_ok_true {c : String} {r : Recipe}
    (h : cuisinePred c r = .ok true) :
    ∃ cu, r.cuisine = some cu ∧ lowerStr cu = lowerStr c := by
  unfold cuisinePred at h
  cases hcu : r.cuisine with
  | none => rw [hcu] at h; exact Except.noConfusion h
  | some cu =>
    rw [hcu] at h
    exact ⟨cu, rfl, by simpa using h⟩

lemma dietPred_ok_true {d : String} {r : Recipe}
    (h : dietPred d r = .ok true) :
    ∃ di, r.diet = some di ∧ lowerStr di = lowerStr d := by
  unfold dietPred at h
  cases hdi : r.diet with
  | none => rw [hdi] at h; exact Except.noConfusion h
  | some di =>
    rw [hdi] at h
    exact ⟨di, rfl, by simpa using h⟩

lemma maxTimePred_eq_true {mt : String} {r : Recipe}
    (h : maxTimePred mt r = true) :
    ∃ ct m, r.cookTime = some ct ∧ parseIntJS mt = some m ∧ ct ≤ m := by
  unfold maxTimePred at h
  cases hct : r.cookTime with
  | none => rw [hct] at h; cases hpi : parseIntJS mt <;> simp [hpi] at h
  | some ct =>
    cases hpi : parseIntJS mt with
    | none => rw [hct, hpi] at h; simp at h
    | some m =>
      rw [hct, hpi] at h
      exact ⟨ct, m, rfl, rfl, by simpa using h⟩

lemma searchPred_ok_true {lq : String} {r : Recipe}
    (h : searchPred lq r = .ok true) :
    (∃ nm, r.name = some nm ∧ includes (lowerStr nm) lq = true) ∨
    (∃ cu, r.cuisine = some cu ∧ includes (lowerStr cu) lq = true) ∨
    (∃ ings, r.ingredients = some ings ∧
      includes (lowerStr (String.intercalate " " ings)) lq = true) := by
  unfold searchPred at h
  split at h
  · exact Except.noConfusion h
  next nm hnm =>
    split at h
    next h1 => exact Or.inl ⟨nm, hnm, h1⟩
    next h1 =>
      split at h
      · exact Except.noConfusion h
      next cu hcu =>
        split at h
        next h2 => exact Or.inr (Or.inl ⟨cu, hcu, h2⟩)
        next h2 =>
          split at h
          next ings hing =>
            exact Or.inr (Or.inr ⟨ings, hing, by simpa using h⟩)
          next => simp at h

lemma searchPred_error_of_cuisine_none {lq : String} {r : Recipe}
    (hcu : r.cuisine = none)
    (hnm : ∀ nm, r.name = some nm → includes (lowerStr nm) lq = false) :
    searchPred lq r = .error () := by
  unfold searchPred
  split
  · rfl
  next nm hn =>
    rw [if_neg (by rw [hnm nm hn]; exact Bool.false_ne_true), hcu]

lemma favoriteRecipes_ok_sound {rs : List Recipe} {favs : List String}
    {q : String} {f : Filters} {res : List Recipe}
    (h : favoriteRecipes rs favs q f = .ok res) :
    ∀ r ∈ res, r ∈ rs ∧ favs.contains r.id = true ∧
      (q ≠ "" → searchPred (lowerStr q) r = .ok true) ∧
      (f.cuisine ≠ "" → cuisinePred f.cuisine r = .ok true) ∧
      (f.diet ≠ "" → dietPred f.diet r = .ok true) ∧
      (f.maxTime ≠ "" → maxTimePred f.maxTime r = true) := by
  intro r hr
  unfold favoriteRecipes at h
  obtain ⟨step2, hs2, h⟩ := bindE_ok h
  obtain ⟨step3, hs3, h⟩ := bindE_ok h
  obtain ⟨step4, hs4, h⟩ := bindE_ok h
  simp only [pure, Except.pure, Except.ok.injEq] at h
  subst h
  have h4 : r ∈ step4 ∧ (f.maxTime ≠ "" → maxTimePred f.maxTime r = true) := by
    by_cases hmt : f.maxTime ≠ ""
    · rw [if_pos hmt] at hr
      have hf := List.mem_filter.mp hr
      exact ⟨hf.1, fun _ => hf.2⟩
    · rw [if_neg hmt] at hr
      exact ⟨hr, fun hc => absurd hc hmt⟩
  have h3 := stage_ok_mem hs4 r h4.1
  have h2 := stage_ok_mem hs3 r h3.1
  have h1 := stage_ok_mem hs2 r h2.1
  have hmem := List.mem_filter.mp h1.1
  exact ⟨hmem.1, hmem.2, h1.2, h2.2, h3.2, h4.2⟩

/-! ### Claim theorems -/

/-- C5: favorites mutations are idempotent: adding an already-present id is a
no-op, removing an absent id is a no-op, and applying `addFavorite`
(respectively `removeFavorite`) twice with the same id equals applying it
once. -/
theorem favorites_mutations_idempotent (favs : List String) (id : String) :
    (favs.contains id = true → addFavorite favs id = favs) ∧
    (favs.contains id = false → removeFavorite favs id = favs) ∧
    addFavorite (addFavorite favs id) id = addFavorite favs id ∧
    removeFavorite (removeFavorite favs id) id = removeFavorite favs id := by
  refine ⟨fun h => ?_, fun h => ?_, ?_, ?_⟩
  · have hm := (contains_eq_true_iff favs id).mp h
    simp [addFavorite, hm]
  · exact removeFavorite_of_not_mem ((contains_eq_false_iff favs id).mp h)
  · by_cases hm : id ∈ favs <;> simp [addFavorite, hm]
  · exact removeFavorite_of_not_mem (not_mem_removeFavorite favs id)

/-- Witness for C5 at a concrete favorites list. -/
theorem favorites_mutations_idempotent_witness :
    addFavorite ["1"] "1" = ["1"] ∧ removeFavorite ["1"] "2" = ["1"] :=
  ⟨(favorites_mutations_idempotent ["1"] "1").1 (by decide),
   (favorites_mutations_idempotent ["1"] "2").2.1 (by decide)⟩

/-- C10: on duplicate-free favorites lists, all three mutations preserve
freedom from duplicates; after any of them, `isFavorite` answers exactly
membership in the resulting list; `removeFavorite` is an order-preserving
sublist of the original; and `addFavorite` of an absent id appends it at
the end. -/
theorem favorites_list_invariants (l : List String) (id : String)
    (hnd : l.Nodup) :
    (addFavorite l id).Nodup ∧
    (removeFavorite l id).Nodup ∧
    (toggleFavorite l id).Nodup ∧
    (∀ x, isFavorite (addFavorite l id) x = true ↔ x ∈ addFavorite l id) ∧
    (∀ x, isFavorite (removeFavorite l id) x = true ↔ x ∈ removeFavorite l id) ∧
    (∀ x, isFavorite (toggleFavorite l id) x = true ↔ x ∈ toggleFavorite l id) ∧
    (removeFavorite l id).Sublist l ∧
    (l.contains id = false → addFavorite l id = l ++ [id]) := by
  have hadd : (addFavorite l id).Nodup := by
    by_cases hm : id ∈ l
    · simpa [addFavorite, hm] using hnd
    · simp [addFavorite, hm, List.nodup_append, hnd]
  have hrem : (removeFavorite l id).Nodup := hnd.filter _
  refine ⟨hadd, hrem, ?_, fun x => contains_eq_true_iff _ x,
    fun x => contains_eq_true_iff _ x, fun x => contains_eq_true_iff _ x,
    List.filter_sublist l, fun h => ?_⟩
  · unfold toggleFavorite
    by_cases hm : id ∈ l <;> simp [hm, hadd, hrem]
  · have hid := (contains_eq_false_iff l id).mp h
    simp [addFavorite, hid]

/-- Witness for C10 at a concrete duplicate-free list. -/
theorem favorites_list_invariants_witness :
    (addFavorite ["1", "2"] "3").Nodup ∧ addFavorite ["1", "2"] "3" = ["1", "2"] ++ ["3"] :=
  ⟨(favorites_list_invariants ["1", "2"] "3" (by decide)).1,
   (favorites_list_invariants ["1", "2"] "3" (by decide)).2.2.2.2.2.2.2 (by decide)⟩

/-- C1 (counterexample): `updateFilters` and `resetFilters` do not reset
`isLoadingMore`; on a state whose `isLoadingMore` is true the cursor after
either operation is not the initial triple. -/
theorem updateFilters_not_full_cursor_reset :
    (updateFilters ⟨"", defaultFilters, [], 5, true, true⟩ ⟨none, none, none⟩).isLoadingMore
      ≠ false ∧
    (resetFilters ⟨"", defaultFilters, [], 5, true, true⟩).isLoadingMore ≠ false := by
  decide

/-- C1 (amended): `updateFilters` and `resetFilters` set `currentPage` to 1
and `hasMore` to true but leave `isLoadingMore` unchanged; `resetPagination`
resets the full triple (1, true, false); the raw search-text setter leaves
the cursor untouched, and the home-page effect that runs on every search or
filter change calls `resetPagination`, resetting the full triple. -/
theorem filter_search_mutations_cursor_reset (s : AppState) (p : FilterPatch)
    (q : String) (h : HomeState) :
    (updateFilters s p).currentPage = 1 ∧
    (updateFilters s p).hasMore = true ∧
    (updateFilters s p).isLoadingMore = s.isLoadingMore ∧
    (resetFilters s).currentPage = 1 ∧
    (resetFilters s).hasMore = true ∧
    (resetFilters s).isLoadingMore = s.isLoadingMore ∧
    (resetPagination s).currentPage = 1 ∧
    (resetPagination s).hasMore = true ∧
    (resetPagination s).isLoadingMore = false ∧
    (setSearchQuery s q).currentPage = s.currentPage ∧
    (setSearchQuery s q).hasMore = s.hasMore ∧
    (setSearchQuery s q).isLoadingMore = s.isLoadingMore ∧
    (homeQueryChangeReset s h).1.currentPage = 1 ∧
    (homeQueryChangeReset s h).1.hasMore = true ∧
    (homeQueryChangeReset s h).1.isLoadingMore = false := by
  simp [updateFilters, resetFilters, resetPagination, setSearchQuery,
    homeQueryChangeReset]

/-- C2 (counterexample): an envelope whose `page` field is present but zero
does not pass its page through; the JavaScript truthy default replaces it
with the requested page number. -/
theorem fetchRecipes_envelope_page_zero :
    (fetchRecipes (.envelope ⟨some [], none, some 5, some true, some 0⟩) 7).page = 7 ∧
    (7 : Nat) ≠ 0 := by
  decide

/-- C2 (amended): a bare array of length N normalizes to
(recipes, N, false, 1); an envelope passes through its `recipes` (falling
back to `data`, then to the empty list), its `total` (0 when absent), its
`hasMore` (false when absent), and its `page` when present and nonzero
(the requested page when absent or zero); in particular an envelope carrying
recipes, total 5, hasMore true and page 2 passes through unchanged. -/
theorem fetchRecipes_shape_preservation (rs : List Recipe) (page : Nat)
    (e : Envelope) :
    fetchRecipes (.arr rs) page = ⟨rs, rs.length, false, 1⟩ ∧
    (∀ l, e.recipes = some l → (fetchRecipes (.envelope e) page).recipes = l) ∧
    (e.recipes = none →
      (fetchRecipes (.envelope e) page).recipes = e.data.getD []) ∧
    (∀ t, e.total = some t → (fetchRecipes (.envelope e) page).total = t) ∧
    (e.total = none → (fetchRecipes (.envelope e) page).total = 0) ∧
    (∀ b, e.hasMore = some b → (fetchRecipes (.envelope e) page).hasMore = b) ∧
    (e.hasMore = none → (fetchRecipes (.envelope e) page).hasMore = false) ∧
    (∀ p, e.page = some p → p ≠ 0 → (fetchRecipes (.envelope e) page).page = p) ∧
    (e.page = some 0 ∨ e.page = none →
      (fetchRecipes (.envelope e) page).page = page) ∧
    fetchRecipes (.envelope ⟨some rs, none, some 5, some true, some 2⟩) page
      = ⟨rs, 5, true, 2⟩ := by
  refine ⟨rfl, fun l hl => ?_, fun hl => ?_, fun t ht => ?_, fun ht => ?_,
    fun b hb => ?_, fun hb => ?_, fun p hp hp0 => ?_, fun hp => ?_, rfl⟩
  · simp [fetchRecipes, hl]
  · simp [fetchRecipes, hl]
  · rcases Nat.eq_zero_or_pos t with h0 | h0
    · simp [fetchRecipes, jsOrNat, ht, h0]
    · simp [fetchRecipes, jsOrNat, ht, Nat.pos_iff_ne_zero.mp h0]
  · simp [fetchRecipes, jsOrNat, ht]
  · simp [fetchRecipes, hb]
  · simp [fetchRecipes, hb]
  · simp [fetchRecipes, jsOrNat, hp, hp0]
  · rcases hp with hp | hp <;> simp [fetchRecipes, jsOrNat, hp]

/-- Witness for C2 (amended) at a concrete envelope and requested page. -/
theorem fetchRecipes_shape_preservation_witness :
    (fetchRecipes (.envelope ⟨some [], none, some 3, some true, some 4⟩) 9).total = 3 ∧
    (fetchRecipes (.envelope ⟨some [], none, some 3, some true, some 4⟩) 9).page = 4 :=
  ⟨(fetchRecipes_shape_preservation [] 9 ⟨some [], none, some 3, some true, some 4⟩).2.2.2.1
      3 rfl,
   (fetchRecipes_shape_preservation [] 9 ⟨some [], none, some 3, some true, some 4⟩).2.2.2.2.2.2.2.1
      4 rfl (by decide)⟩

/-- C4: a page-advance trigger is a no-op when `hasMore` is false or a load
is in flight: `loadNextPage` leaves the state (in particular the page
counter) unchanged, and a `loadRecipes` call while the guard flag is set
returns the states unchanged and issues no request. -/
theorem page_advance_noop (s : AppState) (h : HomeState) :
    ((s.hasMore = false ∨ s.isLoadingMore = true) → loadNextPage s = s) ∧
    (h.loadingRef = true →
      ∀ (append : Bool) (result : Except String FetchResult),
        loadRecipes s h append result = (s, h, false)) := by
  constructor
  · intro hc
    unfold loadNextPage
    rw [if_neg]
    rintro ⟨hm, hl⟩
    rcases hc with hc | hc
    · rw [hc] at hm; exact Bool.false_ne_true hm
    · exact hl (by simp [hc])
  · intro hg append result
    simp [loadRecipes, hg]

/-- Witness for C4 at concrete states with `hasMore` false and the guard
flag set. -/
theorem page_advance_noop_witness :
    loadNextPage ⟨"", defaultFilters, [], 3, false, false⟩
      = ⟨"", defaultFilters, [], 3, false, false⟩ ∧
    loadRecipes ⟨"", defaultFilters, [], 3, false, false⟩ ⟨[], false, none, true⟩
      true (.error "x")
      = (⟨"", defaultFilters, [], 3, false, false⟩, ⟨[], false, none, true⟩, false) :=
  ⟨(page_advance_noop ⟨"", defaultFilters, [], 3, false, false⟩
      ⟨[], false, none, true⟩).1 (Or.inl rfl),
   (page_advance_noop ⟨"", defaultFilters, [], 3, false, false⟩
      ⟨[], false, none, true⟩).2 rfl true (.error "x")⟩

/-- C6: after any favorites mutation settles with a successful write, the
store holds under `recipe_favorites` exactly the serialization of the
in-memory list; a write failure leaves the store as it was, leaves the
in-memory result identical to the success case, and the settle step still
returns normally. -/
theorem favorites_persistence_mirrors (m : FavMutation) (favs : List String)
    (id : String) (st : Store) :
    getItem (favoritesSettle m favs id st false).2 "recipe_favorites"
      = some (stringifyFavorites (favoritesSettle m favs id st false).1) ∧
    (favoritesSettle m favs id st true).2 = st ∧
    (favoritesSettle m favs id st true).1
      = (favoritesSettle m favs id st false).1 := by
  refine ⟨?_, rfl, rfl⟩
  simp [favoritesSettle, persistFavorites, getItem, setItem]

/-- C7: the favorites view keeps exactly the fetched recipes whose id is
favorited, narrowed by exact case-insensitive cuisine and diet match and an
inclusive cook-time ceiling; in particular, on the two-recipe example with
favorites containing both ids and only maxTime 45 active, the result is
exactly the recipe with id 1. -/
theorem favorites_view_filtering :
    (∀ (rs : List Recipe) (favs : List String) (q : String) (f : Filters)
        (res : List Recipe),
      favoriteRecipes rs favs q f = .ok res →
      ∀ r ∈ res, r ∈ rs ∧ favs.contains r.id = true ∧
        (f.cuisine ≠ "" →
          ∃ cu, r.cuisine = some cu ∧ lowerStr cu = lowerStr f.cuisine) ∧
        (f.diet ≠ "" →
          ∃ di, r.diet = some di ∧ lowerStr di = lowerStr f.diet) ∧
        (f.maxTime ≠ "" →
          ∃ ct m, r.cookTime = some ct ∧ parseIntJS f.maxTime = some m ∧ ct ≤ m)) ∧
    favoriteRecipes
      [⟨"1", none, some "Italian", none, some 30, none⟩,
       ⟨"2", none, some "Thai", none, some 60, none⟩]
      ["1", "2"] "" ⟨"", "", "45"⟩
      = .ok [⟨"1", none, some "Italian", none, some 30, none⟩] := by
  constructor
  · intro rs favs q f res h r hr
    obtain ⟨hm1, hm2, _, hcu, hdi, hmt⟩ := favoriteRecipes_ok_sound h r hr
    exact ⟨hm1, hm2, fun hc => cuisinePred_ok_true (hcu hc),
      fun hd => dietPred_ok_true (hdi hd),
      fun hm => maxTimePred_eq_true (hmt hm)⟩
  · rfl

/-- Witness for C7: the in-particular run keeps recipe 1, which therefore
satisfies the cook-time ceiling. -/
theorem favorites_view_filtering_witness :
    ∃ ct m, (⟨"1", none, some "Italian", none, some 30, none⟩ : Recipe).cookTime
        = some ct ∧ parseIntJS "45" = some m ∧ ct ≤ m :=
  ((favorites_view_filtering.1
      [⟨"1", none, some "Italian", none, some 30, none⟩,
       ⟨"2", none, some "Thai", none, some 60, none⟩]
      ["1", "2"] "" ⟨"", "", "45"⟩
      [⟨"1", none, some "Italian", none, some 30, none⟩]
      favorites_view_filtering.2)
    ⟨"1", none, some "Italian", none, some 30, none⟩
    (by simp)).2.2.2.2 (by decide)

/-- C8: with search text curry and no active filters, every recipe the
favorites view returns has a name, cuisine, or joined ingredient string
that case-insensitively contains curry. -/
theorem favorites_view_search_narrowing (rs : List Recipe)
    (favs : List String) (res : List Recipe)
    (h : favoriteRecipes rs favs "curry" ⟨"", "", ""⟩ = .ok res) :
    ∀ r ∈ res,
      (∃ nm, r.name = some nm ∧ includes (lowerStr nm) "curry" = true) ∨
      (∃ cu, r.cuisine = some cu ∧ includes (lowerStr cu) "curry" = true) ∨
      (∃ ings, r.ingredients = some ings ∧
        includes (lowerStr (String.intercalate " " ings)) "curry" = true) := by
  intro r hr
  have hsp := (favoriteRecipes_ok_sound h r hr).2.2.1 (by decide)
  have hlq : lowerStr "curry" = "curry" := by decide
  rw [hlq] at hsp
  exact searchPred_ok_true hsp

/-- Witness for C8: a concrete favorited curry recipe survives the search
narrowing and indeed matches on its name. -/
theorem favorites_view_search_narrowing_witness :
    (∃ nm, (⟨"2", some "Spicy Thai Green Curry", some "Thai",
        some "Gluten-Free", some 45, none⟩ : Recipe).name = some nm ∧
      includes (lowerStr nm) "curry" = true) ∨
    (∃ cu, (⟨"2", some "Spicy Thai Green Curry", some "Thai",
        some "Gluten-Free", some 45, none⟩ : Recipe).cuisine = some cu ∧
      includes (lowerStr cu) "curry" = true) ∨
    (∃ ings, (⟨"2", some "Spicy Thai Green Curry", some "Thai",
        some "Gluten-Free", some 45, none⟩ : Recipe).ingredients = some ings ∧
      includes (lowerStr (String.intercalate " " ings)) "curry" = true) :=
  favorites_view_search_narrowing
    [⟨"2", some "Spicy Thai Green Curry", some "Thai", some "Gluten-Free",
      some 45, none⟩]
    ["2"]
    [⟨"2", some "Spicy Thai Green Curry", some "Thai", some "Gluten-Free",
      some 45, none⟩]
    rfl
    ⟨"2", some "Spicy Thai Green Curry", some "Thai", some "Gluten-Free",
      some 45, none⟩
    (by simp)

/-- C9 (counterexample): a favorited recipe missing the diet field, with the
diet filter active, does not always make the computation throw: when a
non-matching search text excludes the recipe first, the computation returns
an empty list (so it is not `.error ()`), the recipe simply being excluded. -/
theorem favorites_view_diet_missing_no_throw :
    favoriteRecipes [⟨"1", some "Pasta", some "Italian", none, none, none⟩]
      ["1"] "zzz" ⟨"", "Vegan", ""⟩ = .ok [] := rfl

/-- C9 (amended): the favorites-view computation is not total: a favorited
recipe missing the cuisine field makes it throw whenever a non-empty search
text does not match the recipe name, and a favorited recipe missing the
diet field makes it throw whenever the diet filter is active and the recipe
is not screened out by an earlier stage (in particular with no search text
and no cuisine filter). -/
theorem favorites_view_not_total :
    (∀ (rs : List Recipe) (favs : List String) (q : String) (f : Filters)
        (r : Recipe),
      r ∈ rs → favs.contains r.id = true → q ≠ "" → r.cuisine = none →
      (∀ nm, r.name = some nm → includes (lowerStr nm) (lowerStr q) = false) →
      favoriteRecipes rs favs q f = .error ()) ∧
    (∀ (rs : List Recipe) (favs : List String) (f : Filters) (r : Recipe),
      r ∈ rs → favs.contains r.id = true → r.diet = none → f.diet ≠ "" →
      f.cuisine = "" →
      favoriteRecipes rs favs "" f = .error ()) := by
  constructor
  · intro rs favs q f r hmem hfav hq hcu hnm
    unfold favoriteRecipes
    have hr1 : r ∈ rs.filter (fun r => favs.contains r.id) :=
      List.mem_filter.mpr ⟨hmem, hfav⟩
    have hferr : filterE (searchPred (lowerStr q))
        (rs.filter (fun r => favs.contains r.id)) = .error () :=
      filterE_error_of_mem hr1 (searchPred_error_of_cuisine_none hcu hnm)
    simp only [favoriteRecipes, if_pos hq, hferr]
    rfl
  · intro rs favs f r hmem hfav hdi hd hc
    unfold favoriteRecipes
    have hr1 : r ∈ rs.filter (fun r => favs.contains r.id) :=
      List.mem_filter.mpr ⟨hmem, hfav⟩
    have hdp : dietPred f.diet r = .error () := by
      unfold dietPred; rw [hdi]
    have hferr : filterE (dietPred f.diet)
        (rs.filter (fun r => favs.contains r.id)) = .error () :=
      filterE_error_of_mem hr1 hdp
    have hqe : (("" : String) ≠ "") = False := by simp
    simp only [favoriteRecipes, hc, hqe, if_false, pure_bind, if_pos hd, hferr]
    rfl

/-- Witness for C9 (amended): a concrete favorited recipe with no cuisine
field and a non-matching search text makes the computation throw. -/
theorem favorites_view_not_total_witness :
    favoriteRecipes [⟨"1", some "Pasta", none, none, none, none⟩] ["1"] "zzz"
      ⟨"", "", ""⟩ = .error () :=
  favorites_view_not_total.1
    [⟨"1", some "Pasta", none, none, none, none⟩] ["1"] "zzz" ⟨"", "", ""⟩
    ⟨"1", some "Pasta", none, none, none, none⟩
    (by simp) (by decide) (by decide) rfl
    (fun nm hnm => by cases hnm; decide)

/-- C3 (counterexample): after a failed first-page load, the grid component
renders the error view: the error message is shown but the list it renders
is empty even though the state holds the three sample recipes — the fallback
sample list is not displayed alongside the error message. -/
theorem first_page_failure_grid_hides_samples :
    showsErrorMessage (recipeGrid
      (loadRecipes ⟨"", defaultFilters, [], 1, true, false⟩
        ⟨[], true, none, false⟩ false (.error "network error")).2.1.recipes
      (loadRecipes ⟨"", defaultFilters, [], 1, true, false⟩
        ⟨[], true, none, false⟩ false (.error "network error")).2.1.loading
      (loadRecipes ⟨"", defaultFilters, [], 1, true, false⟩
        ⟨[], true, none, false⟩ false (.error "network error")).2.1.error)
      = true ∧
    displayedRecipes (recipeGrid
      (loadRecipes ⟨"", defaultFilters, [], 1, true, false⟩
        ⟨[], true, none, false⟩ false (.error "network error")).2.1.recipes
      (loadRecipes ⟨"", defaultFilters, [], 1, true, false⟩
        ⟨[], true, none, false⟩ false (.error "network error")).2.1.loading
      (loadRecipes ⟨"", defaultFilters, [], 1, true, false⟩
        ⟨[], true, none, false⟩ false (.error "network error")).2.1.error)
      = [] ∧
    (loadRecipes ⟨"", defaultFilters, [], 1, true, false⟩
      ⟨[], true, none, false⟩ false (.error "network error")).2.1.recipes
      = mockRecipes :=
  ⟨rfl, rfl, rfl⟩

/-- C3 (amended): when the guard flag is clear, a failed first-page load
stores the error message, fills the state with exactly the three hard-coded
sample recipes, clears `hasMore` and `loading`, and a request was issued;
the grid then renders the error view (so the page is not blank, but the
sample list is not displayed alongside the message). -/
theorem first_page_failure_state (s : AppState) (h : HomeState) (msg : String)
    (hg : h.loadingRef = false) :
    (loadRecipes s h false (.error msg)).2.1.error
      = some (jsOrString msg "Failed to load recipes") ∧
    (loadRecipes s h false (.error msg)).2.1.recipes = mockRecipes ∧
    mockRecipes.length = 3 ∧
    (loadRecipes s h false (.error msg)).1.hasMore = false ∧
    (loadRecipes s h false (.error msg)).2.1.loading = false ∧
    (loadRecipes s h false (.error msg)).2.2 = true ∧
    recipeGrid (loadRecipes s h false (.error msg)).2.1.recipes
      (loadRecipes s h false (.error msg)).2.1.loading
      (loadRecipes s h false (.error msg)).2.1.error
      = .errorView (jsOrString msg "Failed to load recipes") := by
  have hne : jsOrString msg "Failed to load recipes" ≠ "" := by
    unfold jsOrString
    split
    · decide
    next hm => exact hm
  simp [loadRecipes, hg, recipeGrid, hne, mockRecipes]

/-- Witness for C3 (amended) at a concrete pre-call state and error. -/
theorem first_page_failure_state_witness :
    (loadRecipes ⟨"", defaultFilters, [], 1, true, false⟩
      ⟨[], true, none, false⟩ false (.error "boom")).2.1.recipes
      = mockRecipes :=
  (first_page_failure_state ⟨"", defaultFilters, [], 1, true, false⟩
    ⟨[], true, none, false⟩ "boom" rfl).2.1

end RecipeExplorer
